import Mathlib

/-!
Verification of the `mark_video` pipeline of MarkMyMedia
(src/markmymedia/mark_video.py), shallowly embedded in Lean.

Paths are modelled as plain strings (assumed normalized: no trailing slash,
POSIX separators), matching what `str(Path(...))` yields for the inputs of
interest.  External processes are modelled by an environment that supplies
the outcome of each spawned command; the filesystem at cleanup time is a
list of paths.  Machine-level details that the source never exercises
(encodings, byte buffers) are modelled at the string level.
-/

namespace MarkMyMedia

/-- ASCII lowercasing of one character, as Python `str.lower()` acts on the
ASCII codec names compared in `mark_video.py` lines 104 and 111. -/
def lowerChar (c : Char) : Char :=
  if 'A' ≤ c ∧ c ≤ 'Z' then Char.ofNat (c.toNat + 32) else c

/-- Python `str.lower()` (ASCII fragment used by the source). -/
def pyLower (s : String) : String := String.mk (s.data.map lowerChar)

/-- Predicate for characters other than the path separator. -/
def notSep (c : Char) : Bool := !(c == '/')

/-- Predicate for characters other than a dot. -/
def notDot (c : Char) : Bool := !(c == '.')

/-- Final path component (chars after the last separator), i.e. the char-list
version of `PurePath.name` / `os.path.basename` for normalized paths. -/
def lastSeg (l : List Char) : List Char :=
  (l.reverse.takeWhile notSep).reverse

/-- Leading part of the path up to and including the last separator. -/
def dirPart (l : List Char) : List Char :=
  (l.reverse.dropWhile notSep).reverse

/-- Extension of a file name, mirroring `pathlib.PurePath.suffix`: the part of
the name from its last dot, empty when the dot is the first or last char. -/
def extAfterLastDot (n : List Char) : List Char :=
  let pre := n.reverse.takeWhile notDot
  if pre.length + 1 < n.length ∧ 0 < pre.length then '.' :: pre.reverse else []

/-- Python `os.path.basename` for normalized POSIX path strings. -/
def pyBasename (s : String) : String := String.mk (lastSeg s.data)

/-- Python `Path(s).suffix` for normalized POSIX path strings. -/
def pySuffix (s : String) : String := String.mk (extAfterLastDot (lastSeg s.data))

/-- Char-list version of `Path(s).with_stem(stem + "_marked")` used at
`mark_video.py` line 56: parent, stem with `_marked` appended, same suffix. -/
def withStemMarked (s : String) : String :=
  let n := lastSeg s.data
  let e := extAfterLastDot n
  String.mk (dirPart s.data ++ n.take (n.length - e.length) ++ "_marked".data ++ e)

/-- Python `str.endswith`: the second string is a suffix of the first. -/
def pyEndsWith (s t : String) : Bool := decide (t.data <:+ s.data)

/-- Python `os.path.join(a, b)` for a normalized absolute `a` (no trailing
slash) and a relative `b`, as used for the temp paths at lines 118-120. -/
def pathJoin (a b : String) : String := a ++ "/" ++ b

/-- Supported video extensions, `formats.py` line 8. -/
def VIDEO_EXTS : List String := [".mp4", ".mov", ".avi", ".mkv", ".webm", ".mpg", ".mpeg"]

/-- One probed media stream: the fields of the ffprobe JSON stream objects
that `mark_video` reads (`codec_type`, `codec_name`, `width`, `height`,
`r_frame_rate`); a missing JSON key is `none`, matching `dict.get`. -/
structure MStream where
  codec_type : Option String := none
  codec_name : Option String := none
  width : Option Int := none
  height : Option Int := none
  r_frame_rate : Option String := none
deriving Repr, DecidableEq

/-- The parsed probe output: its `streams` list (`probe.get("streams", [])`). -/
structure Probe where
  streams : List MStream
deriving Repr, DecidableEq

/-- Modelled from the spec: outcome of `_ffprobe_param` (its definition lives
in src/markmymedia/utils.py, which is not among the provided sources).  Per
spec sections 4.1 and 6 the prober either returns the structured stream list,
or fails with the process-failure error on non-zero exit / unparsable output;
per errors.py the tool-not-found error is raised when the executable is
missing.  The environment supplies which of the three happened. -/
inductive ProbeRes where
  | ok (p : Probe)
  | procError
  | toolNotFound
deriving Repr, DecidableEq

/-- Behaviour of one spawned external process, supplied by the environment:
normal exit, non-zero exit (with the text the process wrote on stderr), or
the executable being absent (Python `FileNotFoundError`). -/
inductive ProcResult where
  | ok
  | fail (stderrWritten : String)
  | notFound
deriving Repr, DecidableEq

/-- Python error values that can leave `mark_video`, tagged by type;
`invalidMedia` carries which validation failed (all share the Python type
`InvalidMediaError`). -/
inductive InvalidMediaKind where
  | noStreams
  | noVideoStream
  | invalidResolution (w h : Int)
  | unsupportedVideoCodec (c : String)
  | unsupportedAudioCodec (c : String)
deriving Repr, DecidableEq

inductive PyErr where
  | inputFileNotFound (path : String)
  | fileError (path : String)
  | unsupportedFileType (path : String)
  | invalidOutputPath (path reason : String)
  | invalidMedia (k : InvalidMediaKind)
  | ffmpegNotFound
  | ffmpegProcess (command : List String) (stderr : Option String)
  | videoMarking (msg : String)
  | attributeError (msg : String)
deriving Repr, DecidableEq

/-- Error raised out of a `subprocess.run(..., check=True)` call. -/
inductive RunErr where
  | called (cmd : List String) (stderr : Option String)
  | fileNotFound
deriving Repr, DecidableEq

/-- Run one external command as `mark_video` does: `subprocess.run(cmd,
check=True, stdout=DEVNULL, stderr=STDOUT)`.  Nothing is captured (stderr is
merged into stdout which goes to the null device), so a `CalledProcessError`
carries `stderr = None` -- hence the `none` below, whatever the process wrote. -/
def runNoCapture (cmd : List String) (b : ProcResult) : Except RunErr Unit :=
  match b with
  | .ok => .ok ()
  | .fail _written => .error (.called cmd none)
  | .notFound => .error .fileNotFound

/-- Exception dispatch of the `try` at lines 167-174 for errors coming out of
a subprocess call: a `CalledProcessError` is handled at line 167 by building
`FFmpegProcessError(command=e.cmd, stderr=e.stderr.decode(...))` -- but
`e.stderr` is `None` (never captured), so the attribute access `.decode`
itself raises `AttributeError`, which propagates; a `FileNotFoundError`
(executable missing) is not a `MarkerError` and is wrapped into
`VideoMarkingError` at line 174. -/
def handleRun : RunErr → PyErr
  | .called _cmd none => .attributeError "NoneType object has no attribute decode"
  | .called cmd (some s) => .ffmpegProcess cmd (some s)
  | .fileNotFound => .videoMarking "An unexpected error occurred during marking: FileNotFoundError"

/-- Environment of one `mark_video` call: its arguments plus everything the
outside world decides (filesystem predicates, probe outcome, the result of
each spawned process, the temp-name randomness). -/
structure Env where
  input_path : String
  output_path : Option String := none
  resolution : Option (Int × Int) := none
  overlay_text : Option String := none
  inputExists : Bool := true
  inputIsFile : Bool := true
  dirs : List String := []
  mkdirFails : Bool := false
  probeResult : ProbeRes := .ok ⟨[]⟩
  tmpdir : String := "/tmp"
  uid : String := "u"
  synthRun : ProcResult := .ok
  remuxMarkerRun : ProcResult := .ok
  remuxMainRun : ProcResult := .ok
  concatRun : ProcResult := .ok
deriving Repr, DecidableEq

/-- Lines 55-65: resolve the output path.  Default output replaces the stem;
an explicit output must carry a supported extension and not be a directory. -/
def resolveOutput (env : Env) : Except PyErr String :=
  match env.output_path with
  | none => .ok (withStemMarked env.input_path)
  | some op =>
    if VIDEO_EXTS.contains (pyLower (pySuffix op)) = false then
      .error (.invalidOutputPath op "Output file extension must be one of the supported video extensions")
    else if env.dirs.contains op then
      .error (.invalidOutputPath op "Output path cannot be a directory.")
    else .ok op

/-- Digit value of an ASCII digit character. -/
def digitVal (c : Char) : Option Nat :=
  if '0' ≤ c ∧ c ≤ '9' then some (c.toNat - '0'.toNat) else none

/-- Parse a non-empty all-digit char list as a natural number. -/
def parseNatChars (l : List Char) : Option Nat :=
  if l.isEmpty then none
  else l.foldl (fun acc c =>
    match acc, digitVal c with
    | some a, some d => some (a * 10 + d)
    | _, _ => none) (some 0)

/-- Split a char list at the first occurrence of `c`; `none` if absent. -/
def splitFirst (c : Char) : List Char → Option (List Char × List Char)
  | [] => none
  | x :: xs =>
    if x == c then some ([], xs)
    else match splitFirst c xs with
      | some (a, b) => some (x :: a, b)
      | none => none

/-- Reduce a fraction to lowest terms with a positive denominator, as the
`fractions.Fraction` constructor normalizes its value. -/
def normFrac (n : Int) (d : Nat) : Int × Nat :=
  let g := n.natAbs.gcd d
  if g == 0 then (0, 0) else (n / (g : Int), d / g)

/-- Parse a string as Python `fractions.Fraction` does, over the grammar
fragment relevant here: optional sign, then digits, digits/digits (zero
denominator is a `ZeroDivisionError`, hence `none`: the source catches it the
same way as a parse failure), or a decimal digits.digits form.  The full
`Fraction` grammar additionally allows surrounding whitespace, underscores
and exponents; strings using those fall to the `none` (fallback) path here. -/
def pyFractionChars (l : List Char) : Option (Int × Nat) :=
  let signRest : Bool × List Char :=
    match l with
    | '-' :: r => (true, r)
    | '+' :: r => (false, r)
    | r => (false, r)
  let neg := signRest.1
  let rest := signRest.2
  match splitFirst '/' rest with
  | some (numC, denC) =>
    match parseNatChars numC, parseNatChars denC with
    | some n, some d =>
      if d == 0 then none
      else some (normFrac (if neg then -(n : Int) else (n : Int)) d)
    | _, _ => none
  | none =>
    match splitFirst '.' rest with
    | some (ipC, fpC) =>
      if ipC.isEmpty ∧ fpC.isEmpty then none
      else
        let ip := if ipC.isEmpty then some 0 else parseNatChars ipC
        let fp := if fpC.isEmpty then some 0 else parseNatChars fpC
        match ip, fp with
        | some i, some f =>
          let den : Nat := 10 ^ fpC.length
          some (normFrac (if neg then -((i * den + f : Nat) : Int) else ((i * den + f : Nat) : Int)) den)
        | _, _ => none
    | none =>
      match parseNatChars rest with
      | some n => some (if neg then (-(n : Int), 1) else ((n : Int), 1))
      | none => none

def pyFraction (s : String) : Option (Int × Nat) := pyFractionChars s.data

/-- Python `str(Fraction(...))`: bare numerator when the denominator is 1. -/
def fracStr (q : Int × Nat) : String :=
  if q.2 == 1 then toString q.1 else toString q.1 ++ "/" ++ toString q.2

/-- Lines 98-102: parse the probed rate as a rational, falling back to the
raw string when parsing raises. -/
def fpsResolve (s : String) : String :=
  match pyFraction s with
  | some q => fracStr q
  | none => s

/-- Modelled from the spec: `_generate_lavfi_drawtext` (defined in the absent
src/markmymedia/utils.py).  Spec sections 4.3 and 6: a lavfi source drawing
the overlay text on a black background of the given size and duration. -/
def generateLavfiDrawtext (text : String) (res : Int × Int) (dur : String) : String :=
  "color=c=black:s=" ++ toString res.1 ++ "x" ++ toString res.2 ++ ":d=" ++ dur
    ++ ",drawtext=text=" ++ text

/-- Everything the validation part of the pipeline (through line 113) hands
to the synthesis/remux/concat part. -/
structure Validated where
  outp : String
  width : Int
  height : Int
  fps : String
  video_codec : String
deriving Repr, DecidableEq

/-- First stream of the given kind, line 89 / line 109:
`next((s for s in streams if s.get("codec_type") == t), None)`. -/
def firstOfType (t : String) (streams : List MStream) : Option MStream :=
  streams.find? (fun s => s.codec_type == some t)

/-- Line 93: `width = resolution[0] if resolution else int(video_stream.get("width", 0))`. -/
def resolvedWidth (env : Env) (vs : MStream) : Int :=
  match env.resolution with
  | some r => r.1
  | none => (vs.width).getD 0

/-- Line 94: `height = resolution[1] if resolution else int(video_stream.get("height", 0))`. -/
def resolvedHeight (env : Env) (vs : MStream) : Int :=
  match env.resolution with
  | some r => r.2
  | none => (vs.height).getD 0

/-- Lines 46-113: input checks, output resolution, probing and stream
validation, producing the data used by the external stages. -/
def validateAll (env : Env) : Except PyErr Validated :=
  if env.inputExists = false then .error (.inputFileNotFound env.input_path)
  else if env.inputIsFile = false then .error (.fileError env.input_path)
  else if VIDEO_EXTS.contains (pyLower (pySuffix env.input_path)) = false then
    .error (.unsupportedFileType env.input_path)
  else
    match resolveOutput env with
    | .error e => .error e
    | .ok outp =>
      if env.mkdirFails then .error (.invalidOutputPath outp "Could not create parent directory")
      else
        match env.probeResult with
        | .procError => .error (.videoMarking "Failed to probe video parameters.")
        | .toolNotFound => .error .ffmpegNotFound
        | .ok pr =>
          if pr.streams.isEmpty then .error (.invalidMedia .noStreams)
          else
            match firstOfType "video" pr.streams with
            | none => .error (.invalidMedia .noVideoStream)
            | some vs =>
              let width := resolvedWidth env vs
              let height := resolvedHeight env vs
              if width ≤ 0 ∨ height ≤ 0 then
                .error (.invalidMedia (.invalidResolution width height))
              else
                let fps := fpsResolve ((vs.r_frame_rate).getD "30/1")
                let video_codec := pyLower ((vs.codec_name).getD "")
                if (video_codec == "h264" || video_codec == "hevc") = false then
                  .error (.invalidMedia (.unsupportedVideoCodec video_codec))
                else
                  match firstOfType "audio" pr.streams with
                  | some as0 =>
                    let audio_codec := pyLower ((as0.codec_name).getD "")
                    if (audio_codec == "" || audio_codec == "aac") = false then
                      .error (.invalidMedia (.unsupportedAudioCodec audio_codec))
                    else .ok ⟨outp, width, height, fps, video_codec⟩
                  | none => .ok ⟨outp, width, height, fps, video_codec⟩

/-- Line 118: the temporary marker container path. -/
def markerContainerPath (env : Env) : String :=
  pathJoin env.tmpdir ("marker_" ++ env.uid ++ ".mp4")

/-- Line 119: the temporary marker transport-stream path. -/
def markerTsPath (env : Env) : String :=
  pathJoin env.tmpdir ("marker_" ++ env.uid ++ ".ts")

/-- Line 120: the temporary main transport-stream path. -/
def mainTsPath (env : Env) : String :=
  pathJoin env.tmpdir ("main_" ++ env.uid ++ ".ts")

/-- The three paths of the TemporaryArtifactSet, in the order the cleanup
loop at line 176 visits them. -/
def tempPaths (env : Env) : List String :=
  [markerContainerPath env, markerTsPath env, mainTsPath env]

/-- Lines 122-123: default overlay text. -/
def overlayOf (env : Env) : String :=
  match env.overlay_text with
  | none => "Filename: " ++ pyBasename env.input_path
  | some t => t

/-- Lines 128-138: the marker synthesis command. -/
def cmdMarker (env : Env) (v : Validated) : List String :=
  ["ffmpeg", "-y",
   "-f", "lavfi", "-i", generateLavfiDrawtext (overlayOf env) (v.width, v.height) "0.5",
   "-f", "lavfi", "-i", "anullsrc=channel_layout=stereo:sample_rate=44100",
   "-shortest",
   "-c:v", (if v.video_codec == "h264" then "libx264" else "libx265"),
   "-pix_fmt", "yuv420p",
   "-r", v.fps,
   "-c:a", "aac", "-ar", "44100",
   markerContainerPath env]

/-- Lines 144-151: one remux command (stream copy into MPEG-TS with the
codec-specific annex-B bitstream filter). -/
def remuxCmd (v : Validated) (src dst : String) : List String :=
  ["ffmpeg", "-y", "-i", src, "-c", "copy",
   "-bsf:v", (if v.video_codec == "h264" then "h264_mp4toannexb" else "hevc_mp4toannexb"),
   "-f", "mpegts", dst]

/-- Lines 154-164: the final concatenation command; the audio bitstream
filter is appended exactly when the lowered output string ends in ".mp4". -/
def buildFinalCmd (markerTs mainTs outp : String) : List String :=
  (["ffmpeg", "-y", "-i", "concat:" ++ markerTs ++ "|" ++ mainTs, "-c", "copy"]
    ++ (if pyEndsWith (pyLower outp) ".mp4" then ["-bsf:a", "aac_adtstoasc"] else []))
    ++ [outp]

instance {ε α : Type} [DecidableEq ε] [DecidableEq α] : DecidableEq (Except ε α) := fun x y =>
  match x, y with
  | .ok a, .ok b =>
    match decEq a b with
    | isTrue h => isTrue (by rw [h])
    | isFalse h => isFalse (by intro he; cases he; exact h rfl)
  | .error a, .error b =>
    match decEq a b with
    | isTrue h => isTrue (by rw [h])
    | isFalse h => isFalse (by intro he; cases he; exact h rfl)
  | .ok _, .error _ => isFalse (by intro he; cases he)
  | .error _, .ok _ => isFalse (by intro he; cases he)

/-- Observable outcome of the try-block of `mark_video` (before the finally):
the Python-level result, the ffmpeg commands spawned in order, whether the
temporary paths were assigned (line 118 reached), and -- for spec purposes --
the resolution handed to the synthesizer. -/
structure CoreOut where
  result : Except PyErr Unit
  spawned : List (List String)
  assigned : Bool
  synthRes : Option (Int × Int)
deriving Repr, DecidableEq

/-- Lines 115-165: temp names, synthesis, the two remuxes (marker first,
original second) and the final concatenation, each aborting on the first
failing subprocess via the handlers at lines 167-174. -/
def afterValidation (env : Env) (v : Validated) : CoreOut :=
  let c1 := cmdMarker env v
  match runNoCapture c1 env.synthRun with
  | .error e => ⟨.error (handleRun e), [c1], true, some (v.width, v.height)⟩
  | .ok _ =>
    let c2 := remuxCmd v (markerContainerPath env) (markerTsPath env)
    match runNoCapture c2 env.remuxMarkerRun with
    | .error e => ⟨.error (handleRun e), [c1, c2], true, some (v.width, v.height)⟩
    | .ok _ =>
      let c3 := remuxCmd v env.input_path (mainTsPath env)
      match runNoCapture c3 env.remuxMainRun with
      | .error e => ⟨.error (handleRun e), [c1, c2, c3], true, some (v.width, v.height)⟩
      | .ok _ =>
        let c4 := buildFinalCmd (markerTsPath env) (mainTsPath env) v.outp
        match runNoCapture c4 env.concatRun with
        | .error e => ⟨.error (handleRun e), [c1, c2, c3, c4], true, some (v.width, v.height)⟩
        | .ok _ => ⟨.ok (), [c1, c2, c3, c4], true, some (v.width, v.height)⟩

/-- The whole of `mark_video` up to (but not including) the `finally`. -/
def markVideoCore (env : Env) : CoreOut :=
  match validateAll env with
  | .error e => ⟨.error e, [], false, none⟩
  | .ok v => afterValidation env v

/-- Removing a file: every occurrence of the path leaves the filesystem. -/
def fsRemove (fs : List String) (p : String) : List String :=
  fs.filter (fun q => !(q == p))

/-- Lines 175-181, the `finally` loop: for each temp variable, skip it when
unassigned (`None`) or when the path does not exist; otherwise attempt
removal, swallowing a failing removal (`except OSError: pass`).  Returns the
attempted removals in order and the filesystem afterwards. -/
def removeLoop : List (Option String) → List String → List String → List String × List String
  | [], fs, _ => ([], fs)
  | none :: rest, fs, rf => removeLoop rest fs rf
  | some p :: rest, fs, rf =>
    if fs.contains p then
      if rf.contains p then
        let r := removeLoop rest fs rf
        (p :: r.1, r.2)
      else
        let r := removeLoop rest (fsRemove fs p) rf
        (p :: r.1, r.2)
    else removeLoop rest fs rf

/-- Full observable outcome of a `mark_video` call. -/
structure MVResult where
  result : Except PyErr Unit
  spawned : List (List String)
  assigned : Bool
  synthRes : Option (Int × Int)
  attempted : List String
  finalFs : List String
deriving Repr, DecidableEq

/-- The whole of `mark_video`: the try-block followed by the `finally`
cleanup, run against a filesystem `fs`; `rf` is the set of paths whose
removal raises `OSError`. -/
def markVideo (env : Env) (fs rf : List String) : MVResult :=
  let c := markVideoCore env
  let ps : List (Option String) :=
    if c.assigned then (tempPaths env).map some else [none, none, none]
  let r := removeLoop ps fs rf
  ⟨c.result, c.spawned, c.assigned, c.synthRes, r.1, r.2⟩

/-- Bool-level record that the pre-probe validation (lines 46-72) passes. -/
def preambleOk (env : Env) : Bool :=
  env.inputExists && env.inputIsFile
    && VIDEO_EXTS.contains (pyLower (pySuffix env.input_path))
    && (match resolveOutput env with | .ok _ => true | .error _ => false)
    && !env.mkdirFails

/-- Bool version of the audio-codec check of lines 109-113: the first audio
stream, when present, must have an empty/absent or aac codec name. -/
def audioOkB (pr : Probe) : Bool :=
  match firstOfType "audio" pr.streams with
  | some as0 =>
    (pyLower ((as0.codec_name).getD "") == "" || pyLower ((as0.codec_name).getD "") == "aac")
  | none => true

/-- Apply a transformation to the codec name of one probed stream, leaving
all other fields unchanged. -/
def mapStream (f : String → String) (s : MStream) : MStream :=
  { s with codec_name := (s.codec_name).map f }

/-- Apply a transformation to every probed codec name (used to state that the
codec whitelist checks are insensitive to the case of the probed names). -/
def mapCodecNames (f : String → String) (env : Env) : Env :=
  { env with probeResult :=
      match env.probeResult with
      | .ok pr => .ok ⟨pr.streams.map (mapStream f)⟩
      | r => r }

/-- Recognizer for a process-failure (`FFmpegProcessError`) outcome. -/
def isProcessFailure : Except PyErr Unit → Bool
  | .error (.ffmpegProcess _ _) => true
  | _ => false

/-- Baseline environment: an existing h264 1280x720 25 fps input with no
audio stream, default output, all external processes succeeding. -/
def envBase : Env :=
  { input_path := "/v/in.mp4",
    probeResult := .ok ⟨[{ codec_type := some "video", codec_name := some "h264",
                           width := some 1280, height := some 720,
                           r_frame_rate := some "25/1" }]⟩ }

/-- A codec-name transformation that uppercases the two whitelisted names;
its lowering agrees with the identity, exhibiting case-insensitivity. -/
def upCodec (s : String) : String :=
  if s == "h264" then "H264" else if s == "aac" then "AAC" else s

/-- Baseline environment with an additional aac audio stream. -/
def envBaseAudio : Env :=
  { input_path := "/v/in.mp4",
    probeResult := .ok ⟨[{ codec_type := some "video", codec_name := some "h264",
                           width := some 1280, height := some 720,
                           r_frame_rate := some "25/1" },
                         { codec_type := some "audio", codec_name := some "aac" }]⟩ }

/-- A probed video stream with an unsupported codec (vp9). -/
def vsC4 : MStream :=
  { codec_type := some "video", codec_name := some "vp9",
    width := some 1280, height := some 720, r_frame_rate := some "25/1" }

def prC4 : Probe := ⟨[vsC4]⟩

def envC4 : Env := { input_path := "/v/in.mp4", probeResult := .ok prC4 }

/-- The spec scenario for resolution override: probed 1920x1080, override 640x480. -/
def vsC6 : MStream :=
  { codec_type := some "video", codec_name := some "h264",
    width := some 1920, height := some 1080, r_frame_rate := some "25/1" }

def prC6 : Probe := ⟨[vsC6]⟩

def envC6 : Env :=
  { input_path := "/v/in.mp4", resolution := some (640, 480), probeResult := .ok prC6 }

/-- A probed video stream whose rate string does not parse as a rational. -/
def vsC8 : MStream :=
  { codec_type := some "video", codec_name := some "h264",
    width := some 1280, height := some 720, r_frame_rate := some "abc" }

def prC8 : Probe := ⟨[vsC8]⟩

def envC8 : Env := { input_path := "/v/in.mp4", probeResult := .ok prC8 }

/-- A probed video stream carrying no rate field at all. -/
def vsC9 : MStream :=
  { codec_type := some "video", codec_name := some "h264",
    width := some 1280, height := some 720 }

def prC9 : Probe := ⟨[vsC9]⟩

def envC9 : Env := { input_path := "/v/in.mp4", probeResult := .ok prC9 }

/-! Basic bridging lemmas. -/

theorem contains_iff_mem (l : List String) (a : String) : l.contains a = true ↔ a ∈ l :=
  List.elem_iff

theorem mem_fsRemove (fs : List String) (p q : String) :
    q ∈ fsRemove fs p ↔ q ∈ fs ∧ q ≠ p := by
  simp [fsRemove]

/-! Lemmas about the cleanup loop. -/

theorem removeLoop_fs_mono (ps : List (Option String)) (fs rf : List String) (p : String)
    (h : p ∉ fs) : p ∉ (removeLoop ps fs rf).2 := by
  induction ps generalizing fs with
  | nil => simpa [removeLoop] using h
  | cons o rest ih =>
    cases o with
    | none => exact ih fs h
    | some q =>
      by_cases hq : q ∈ fs
      · by_cases hrf : q ∈ rf
        · simpa [removeLoop, hq, hrf] using ih fs h
        · have hq2 : p ∉ fsRemove fs q := by
            intro hmem
            exact h ((mem_fsRemove fs q p).mp hmem).1
          simpa [removeLoop, hq, hrf] using ih (fsRemove fs q) hq2
      · simpa [removeLoop, hq] using ih fs h

theorem removeLoop_attempted_mem (ps : List (Option String)) (fs rf : List String) (p : String)
    (h : p ∈ (removeLoop ps fs rf).1) : p ∈ fs := by
  induction ps generalizing fs with
  | nil => simp [removeLoop] at h
  | cons o rest ih =>
    cases o with
    | none => exact ih fs (by simpa [removeLoop] using h)
    | some q =>
      by_cases hq : q ∈ fs
      · by_cases hrf : q ∈ rf
        · rw [show removeLoop (some q :: rest) fs rf
              = (q :: (removeLoop rest fs rf).1, (removeLoop rest fs rf).2) by
                simp [removeLoop, hq, hrf]] at h
          rcases List.mem_cons.mp h with h | h
          · exact h ▸ hq
          · exact ih fs h
        · rw [show removeLoop (some q :: rest) fs rf
              = (q :: (removeLoop rest (fsRemove fs q) rf).1,
                 (removeLoop rest (fsRemove fs q) rf).2) by
                simp [removeLoop, hq, hrf]] at h
          rcases List.mem_cons.mp h with h | h
          · exact h ▸ hq
          · exact ((mem_fsRemove fs q p).mp (ih (fsRemove fs q) h)).1
      · exact ih fs (by simpa [removeLoop, hq] using h)

theorem removeLoop_removes (ps : List (Option String)) (fs rf : List String) (p : String)
    (hin : some p ∈ ps) (hfs : p ∈ fs) (hrf : p ∉ rf) :
    p ∉ (removeLoop ps fs rf).2 := by
  induction ps generalizing fs with
  | nil => simp at hin
  | cons o rest ih =>
    cases o with
    | none =>
      have hin2 : some p ∈ rest := by simpa using hin
      exact ih fs hin2 hfs
    | some q =>
      by_cases hpq : p = q
      · subst hpq
        have hnot : p ∉ fsRemove fs p := by
          intro hmem
          exact ((mem_fsRemove fs p p).mp hmem).2 rfl
        simpa [removeLoop, hfs, hrf] using removeLoop_fs_mono rest (fsRemove fs p) rf p hnot
      · have hin2 : some p ∈ rest := by
          rcases List.mem_cons.mp hin with h | h
          · exact absurd (Option.some.inj h) hpq
          · exact h
        by_cases hq : q ∈ fs
        · by_cases hrfq : q ∈ rf
          · simpa [removeLoop, hq, hrfq] using ih fs hin2 hfs
          · have hfs2 : p ∈ fsRemove fs q := (mem_fsRemove fs q p).mpr ⟨hfs, hpq⟩
            simpa [removeLoop, hq, hrfq] using ih (fsRemove fs q) hin2 hfs2
        · simpa [removeLoop, hq] using ih fs hin2 hfs

theorem removeLoop_attempts (ps : List (Option String)) (fs rf : List String) (p : String)
    (hin : some p ∈ ps) (hfs : p ∈ fs) :
    p ∈ (removeLoop ps fs rf).1 := by
  induction ps generalizing fs with
  | nil => simp at hin
  | cons o rest ih =>
    cases o with
    | none =>
      have hin2 : some p ∈ rest := by simpa using hin
      exact ih fs hin2 hfs
    | some q =>
      by_cases hpq : p = q
      · subst hpq
        by_cases hrfq : p ∈ rf <;> simp [removeLoop, hfs, hrfq]
      · have hin2 : some p ∈ rest := by
          rcases List.mem_cons.mp hin with h | h
          · exact absurd (Option.some.inj h) hpq
          · exact h
        by_cases hq : q ∈ fs
        · by_cases hrfq : q ∈ rf
          · have := ih fs hin2 hfs
            rw [show removeLoop (some q :: rest) fs rf
                = (q :: (removeLoop rest fs rf).1, (removeLoop rest fs rf).2) by
                  simp [removeLoop, hq, hrfq]]
            exact List.mem_cons.mpr (Or.inr this)
          · have hfs2 : p ∈ fsRemove fs q := (mem_fsRemove fs q p).mpr ⟨hfs, hpq⟩
            have := ih (fsRemove fs q) hin2 hfs2
            rw [show removeLoop (some q :: rest) fs rf
                = (q :: (removeLoop rest (fsRemove fs q) rf).1,
                   (removeLoop rest (fsRemove fs q) rf).2) by
                  simp [removeLoop, hq, hrfq]]
            exact List.mem_cons.mpr (Or.inr this)
        · simpa [removeLoop, hq] using ih fs hin2 hfs

/-! Structural lemmas about the external-process part of the pipeline. -/

theorem afterValidation_assigned (env : Env) (v : Validated) :
    (afterValidation env v).assigned = true := by
  unfold afterValidation runNoCapture
  cases env.synthRun <;> cases env.remuxMarkerRun <;> cases env.remuxMainRun <;>
    cases env.concatRun <;> rfl

theorem afterValidation_synthRes (env : Env) (v : Validated) :
    (afterValidation env v).synthRes = some (v.width, v.height) := by
  unfold afterValidation runNoCapture
  cases env.synthRun <;> cases env.remuxMarkerRun <;> cases env.remuxMainRun <;>
    cases env.concatRun <;> rfl

theorem afterValidation_spawned_cons (env : Env) (v : Validated) :
    ∃ rest, (afterValidation env v).spawned = cmdMarker env v :: rest := by
  unfold afterValidation runNoCapture
  cases env.synthRun <;> cases env.remuxMarkerRun <;> cases env.remuxMainRun <;>
    cases env.concatRun <;> exact ⟨_, rfl⟩

theorem afterValidation_spawned_length (env : Env) (v : Validated) :
    (afterValidation env v).spawned.length ≤ 4 := by
  unfold afterValidation runNoCapture
  cases env.synthRun <;> cases env.remuxMarkerRun <;> cases env.remuxMainRun <;>
    cases env.concatRun <;> simp

theorem afterValidation_get3 (env : Env) (v : Validated) (cmd : List String)
    (h : (afterValidation env v).spawned.get? 3 = some cmd) :
    cmd = buildFinalCmd (markerTsPath env) (mainTsPath env) v.outp := by
  revert h
  unfold afterValidation runNoCapture
  cases env.synthRun <;> cases env.remuxMarkerRun <;> cases env.remuxMainRun <;>
    cases env.concatRun <;> intro h <;>
    first
      | exact (Option.some.inj h).symm
      | exact Option.noConfusion h

theorem markVideoCore_spawned_get3 (env : Env) (cmd : List String)
    (h : (markVideoCore env).spawned.get? 3 = some cmd) :
    ∃ v, validateAll env = Except.ok v
      ∧ cmd = buildFinalCmd (markerTsPath env) (mainTsPath env) v.outp := by
  unfold markVideoCore at h
  cases hv : validateAll env with
  | error e => rw [hv] at h; simp at h
  | ok v =>
    rw [hv] at h
    exact ⟨v, rfl, afterValidation_get3 env v cmd h⟩

theorem markVideoCore_spawned_length (env : Env) :
    (markVideoCore env).spawned.length ≤ 4 := by
  unfold markVideoCore
  cases hv : validateAll env with
  | error e => simp
  | ok v => exact afterValidation_spawned_length env v

theorem markVideoCore_assigned_inv (env : Env)
    (h : (markVideoCore env).assigned = true) :
    ∃ v, validateAll env = Except.ok v := by
  unfold markVideoCore at h
  cases hv : validateAll env with
  | error e => rw [hv] at h; simp at h
  | ok v => exact ⟨v, rfl⟩

theorem markVideoCore_synthRes_inv (env : Env) (r : Int × Int)
    (h : (markVideoCore env).synthRes = some r) :
    ∃ v, validateAll env = Except.ok v ∧ r = (v.width, v.height) := by
  unfold markVideoCore at h
  cases hv : validateAll env with
  | error e => rw [hv] at h; simp at h
  | ok v =>
    rw [hv, afterValidation_synthRes env v] at h
    exact ⟨v, rfl, (Option.some.inj h).symm⟩

/-! Lemmas about the path-string helpers. -/

theorem takeWhile_append_all {p : Char → Bool} (l₁ l₂ : List Char)
    (h : ∀ c ∈ l₁, p c = true) :
    (l₁ ++ l₂).takeWhile p = l₁ ++ l₂.takeWhile p := by
  induction l₁ with
  | nil => simp
  | cons a t ih =>
    have ha : p a = true := h a (List.mem_cons_self a t)
    simp [List.takeWhile_cons, ha, ih (fun c hc => h c (List.mem_cons_of_mem a hc))]

theorem takeWhile_dropWhile_nil {p : Char → Bool} (l : List Char) :
    (l.dropWhile p).takeWhile p = [] := by
  induction l with
  | nil => simp
  | cons a t ih =>
    by_cases ha : p a = true
    · simpa [List.dropWhile_cons, ha] using ih
    · have ha2 : p a = false := by simpa using ha
      simp [List.dropWhile_cons, List.takeWhile_cons, ha2]

theorem dropWhile_head_false {p : Char → Bool} (l : List Char) (a : Char) (t : List Char)
    (h : l.dropWhile p = a :: t) : p a = false := by
  induction l with
  | nil => simp at h
  | cons b r ih =>
    by_cases hb : p b = true
    · exact ih (by simpa [List.dropWhile_cons, hb] using h)
    · have hb2 : p b = false := by simpa using hb
      have hbr : b :: r = a :: t := by simpa [List.dropWhile_cons, hb2] using h
      injection hbr with h1 _
      exact h1 ▸ hb2

theorem lastSeg_suffix (l : List Char) : lastSeg l <:+ l :=
  List.reverse_prefix.mp (by simpa [lastSeg] using @List.takeWhile_prefix _ l.reverse notSep)

theorem dirPart_append_lastSeg (l : List Char) : dirPart l ++ lastSeg l = l := by
  unfold dirPart lastSeg
  calc (l.reverse.dropWhile notSep).reverse ++ (l.reverse.takeWhile notSep).reverse
      = ((l.reverse.takeWhile notSep) ++ (l.reverse.dropWhile notSep)).reverse :=
        (List.reverse_append _ _).symm
    _ = l.reverse.reverse := by rw [List.takeWhile_append_dropWhile]
    _ = l := List.reverse_reverse l

theorem mem_lastSeg_notSep (l : List Char) (c : Char) (h : c ∈ lastSeg l) :
    notSep c = true :=
  List.mem_takeWhile_imp (List.mem_reverse.mp h)

theorem lastSeg_dirPart_append (l m : List Char) (hm : ∀ c ∈ m, notSep c = true) :
    lastSeg (dirPart l ++ m) = m := by
  unfold lastSeg dirPart
  rw [List.reverse_append, List.reverse_reverse,
    takeWhile_append_all _ _ (fun c hc => hm c (List.mem_reverse.mp hc)),
    takeWhile_dropWhile_nil, List.append_nil, List.reverse_reverse]

theorem ext_spec (n : List Char) (h : extAfterLastDot n ≠ []) :
    ∃ (pre rest : List Char), n = rest.reverse ++ '.' :: pre.reverse
      ∧ extAfterLastDot n = '.' :: pre.reverse
      ∧ (∀ c ∈ pre, notDot c = true)
      ∧ 0 < pre.length ∧ pre.length + 1 < n.length := by
  by_cases hc : (n.reverse.takeWhile notDot).length + 1 < n.length
      ∧ 0 < (n.reverse.takeWhile notDot).length
  · have hsplit : n.reverse.takeWhile notDot ++ n.reverse.dropWhile notDot = n.reverse :=
      List.takeWhile_append_dropWhile notDot n.reverse
    have hlen : n.reverse.dropWhile notDot ≠ [] := by
      intro hnil
      rw [hnil, List.append_nil] at hsplit
      have h2 := congrArg List.length hsplit
      rw [List.length_reverse] at h2
      omega
    obtain ⟨a, t, hat⟩ := List.exists_cons_of_ne_nil hlen
    have ha : notDot a = false := dropWhile_head_false n.reverse a t hat
    have ha2 : a = '.' := by
      have : (a == '.') = true := by simpa [notDot] using ha
      exact eq_of_beq this
    refine ⟨n.reverse.takeWhile notDot, t, ?_, ?_, ?_, hc.2, hc.1⟩
    · have h1 : n.reverse = n.reverse.takeWhile notDot ++ '.' :: t := by
        conv_lhs => rw [← hsplit]
        rw [hat, ha2]
      have h2 : n = (n.reverse.takeWhile notDot ++ '.' :: t).reverse := by
        rw [← h1, List.reverse_reverse]
      have h3 : (n.reverse.takeWhile notDot ++ '.' :: t).reverse
          = t.reverse ++ '.' :: (n.reverse.takeWhile notDot).reverse := by
        rw [List.reverse_append, List.reverse_cons, List.append_assoc]
        rfl
      exact h2.trans h3
    · simp only [extAfterLastDot, hc, if_pos, and_self]
    · exact fun c hc2 => List.mem_takeWhile_imp hc2
  · exfalso
    apply h
    simp only [extAfterLastDot]
    rw [if_neg hc]

theorem ext_suffix (n : List Char) : extAfterLastDot n <:+ n := by
  by_cases h : extAfterLastDot n = []
  · rw [h]; exact List.nil_suffix
  · obtain ⟨pre, rest, hn, he, _, _, _⟩ := ext_spec n h
    rw [he]
    exact ⟨rest.reverse, hn.symm⟩

theorem mem_ext_of_mem (n : List Char) (c : Char) (h : c ∈ extAfterLastDot n) : c ∈ n :=
  List.IsSuffix.mem h (ext_suffix n)

theorem pySuffix_data_suffix (s : String) : (pySuffix s).data <:+ s.data :=
  List.IsSuffix.trans (ext_suffix (lastSeg s.data)) (lastSeg_suffix s.data)

theorem mem_video_exts (x : String) (h : VIDEO_EXTS.contains x = true) :
    x = ".mp4" ∨ x = ".mov" ∨ x = ".avi" ∨ x = ".mkv"
      ∨ x = ".webm" ∨ x = ".mpg" ∨ x = ".mpeg" := by
  have h2 := (contains_iff_mem _ _).mp h
  simpa [VIDEO_EXTS] using h2

theorem ext_append_general (st mk pre : List Char)
    (hpredot : ∀ c ∈ pre, notDot c = true) (hprelen : 0 < pre.length)
    (hmk : 0 < mk.length) :
    extAfterLastDot (st ++ mk ++ '.' :: pre.reverse) = '.' :: pre.reverse := by
  unfold extAfterLastDot
  have hrev : (st ++ mk ++ '.' :: pre.reverse).reverse
      = pre ++ '.' :: (mk.reverse ++ st.reverse) := by
    simp [List.reverse_append, List.append_assoc]
  rw [hrev, takeWhile_append_all _ _ hpredot,
    show ('.' :: (mk.reverse ++ st.reverse)).takeWhile notDot = [] from by
      simp [List.takeWhile_cons, show notDot '.' = false from by decide],
    List.append_nil]
  have hlen : pre.length + 1 < (st ++ mk ++ '.' :: pre.reverse).length := by
    simp only [List.length_append, List.length_cons, List.length_reverse]
    omega
  rw [if_pos ⟨hlen, hprelen⟩]

theorem pySuffix_withStemMarked (s : String)
    (h : VIDEO_EXTS.contains (pyLower (pySuffix s)) = true) :
    pySuffix (withStemMarked s) = pySuffix s := by
  have hne : extAfterLastDot (lastSeg s.data) ≠ [] := by
    intro hnil
    have h0 : pySuffix s = String.mk [] := by
      show String.mk (extAfterLastDot (lastSeg s.data)) = String.mk []
      rw [hnil]
    rw [h0] at h
    exact absurd h (by decide)
  obtain ⟨pre, rest, hn, he, hpredot, hprelen, hprelt⟩ := ext_spec (lastSeg s.data) hne
  have hmarked : ∀ c ∈ "_marked".data, notSep c = true := by decide
  have hstem : ∀ c ∈ (lastSeg s.data).take
      ((lastSeg s.data).length - (extAfterLastDot (lastSeg s.data)).length),
      notSep c = true :=
    fun c hc => mem_lastSeg_notSep s.data c (List.take_subset _ _ hc)
  have hext : ∀ c ∈ extAfterLastDot (lastSeg s.data), notSep c = true :=
    fun c hc => mem_lastSeg_notSep s.data c (mem_ext_of_mem _ c hc)
  have hall : ∀ c ∈ (lastSeg s.data).take
      ((lastSeg s.data).length - (extAfterLastDot (lastSeg s.data)).length)
      ++ "_marked".data ++ extAfterLastDot (lastSeg s.data), notSep c = true := by
    intro c hc
    rcases List.mem_append.mp hc with hc2 | hc2
    · rcases List.mem_append.mp hc2 with hc3 | hc3
      · exact hstem c hc3
      · exact hmarked c hc3
    · exact hext c hc2
  have h1 : lastSeg (withStemMarked s).data
      = (lastSeg s.data).take
          ((lastSeg s.data).length - (extAfterLastDot (lastSeg s.data)).length)
        ++ "_marked".data ++ extAfterLastDot (lastSeg s.data) := by
    show lastSeg (dirPart s.data
        ++ (lastSeg s.data).take
            ((lastSeg s.data).length - (extAfterLastDot (lastSeg s.data)).length)
        ++ "_marked".data ++ extAfterLastDot (lastSeg s.data)) = _
    rw [List.append_assoc, List.append_assoc, ← List.append_assoc
        ((lastSeg s.data).take
          ((lastSeg s.data).length - (extAfterLastDot (lastSeg s.data)).length))]
    exact lastSeg_dirPart_append s.data _ hall
  show String.mk (extAfterLastDot (lastSeg (withStemMarked s).data))
      = String.mk (extAfterLastDot (lastSeg s.data))
  rw [h1, he, ext_append_general _ _ pre hpredot hprelen (by decide)]

theorem endswith_iff_ext_mp4 (s : String)
    (h : VIDEO_EXTS.contains (pyLower (pySuffix s)) = true) :
    pyEndsWith (pyLower s) ".mp4" = true ↔ pyLower (pySuffix s) = ".mp4" := by
  have hsuf : (pySuffix s).data.map lowerChar <:+ s.data.map lowerChar :=
    List.IsSuffix.map lowerChar (pySuffix_data_suffix s)
  constructor
  · intro hend
    have h4 : ".mp4".data <:+ s.data.map lowerChar := of_decide_eq_true hend
    rcases mem_video_exts _ h with hx | hx | hx | hx | hx | hx | hx
    · exact hx
    all_goals
      exfalso
      have hmap : (pySuffix s).data.map lowerChar = _ := congrArg String.data hx
      rw [hmap] at hsuf
      exact absurd (List.suffix_of_suffix_length_le h4 hsuf (by decide)) (by decide)
  · intro heq
    have hmap : (pySuffix s).data.map lowerChar = ".mp4".data := congrArg String.data heq
    rw [hmap] at hsuf
    exact decide_eq_true hsuf

theorem concatArg_ne_adts (m n : String) : "concat:" ++ m ++ "|" ++ n ≠ "aac_adtstoasc" := by
  intro h
  have h2 : ("concat:" ++ m ++ "|" ++ n).data.head? = some 'c' := rfl
  rw [h] at h2
  exact absurd h2 (by decide)

theorem mem_adts_buildFinalCmd (m n o : String)
    (ho : VIDEO_EXTS.contains (pyLower (pySuffix o)) = true) :
    ("aac_adtstoasc" ∈ buildFinalCmd m n o) ↔ pyEndsWith (pyLower o) ".mp4" = true := by
  have hne : o ≠ "aac_adtstoasc" := by
    intro he
    rw [he] at ho
    exact absurd ho (by decide)
  unfold buildFinalCmd
  by_cases hc : pyEndsWith (pyLower o) ".mp4" = true
  · simp [hc]
  · have hc2 : pyEndsWith (pyLower o) ".mp4" = false := by simpa using hc
    simp only [hc2, Bool.false_eq_true, if_false, List.append_nil, List.mem_append,
      List.mem_cons, List.mem_singleton, List.not_mem_nil, or_false]
    constructor
    · intro hmem
      exfalso
      rcases hmem with hmem | hmem
      · rcases hmem with h1 | h1 | h1 | h1 | h1 | h1
        · exact absurd h1 (by decide)
        · exact absurd h1 (by decide)
        · exact absurd h1 (by decide)
        · exact concatArg_ne_adts m n h1.symm
        · exact absurd h1 (by decide)
        · simp at h1
      · exact hne hmem.symm
    · intro hfalse
      exact absurd hfalse (by simp [hc2])

theorem resolveOutput_ext (env : Env) (o : String)
    (h : resolveOutput env = Except.ok o)
    (hin : VIDEO_EXTS.contains (pyLower (pySuffix env.input_path)) = true) :
    VIDEO_EXTS.contains (pyLower (pySuffix o)) = true := by
  unfold resolveOutput at h
  cases hop : env.output_path with
  | none =>
    rw [hop] at h
    have ho : o = withStemMarked env.input_path := (Except.ok.inj h).symm
    rw [ho, pySuffix_withStemMarked env.input_path hin]
    exact hin
  | some op =>
    rw [hop] at h
    dsimp only at h
    by_cases h1 : VIDEO_EXTS.contains (pyLower (pySuffix op)) = false
    · rw [if_pos h1] at h
      exact Except.noConfusion h
    · rw [if_neg h1] at h
      cases h2 : env.dirs.contains op with
      | true =>
        rw [h2] at h
        simp at h
      | false =>
        rw [h2] at h
        simp at h
        have h3 : VIDEO_EXTS.contains (pyLower (pySuffix op)) = true := by
          cases hcc : VIDEO_EXTS.contains (pyLower (pySuffix op))
          · exact absurd hcc h1
          · rfl
        rw [← h]
        exact h3

/-! Inversion and forward lemmas for the validation part. -/

theorem validateAll_ok_inv (env : Env) (v : Validated)
    (h : validateAll env = Except.ok v) :
    preambleOk env = true
    ∧ resolveOutput env = Except.ok v.outp
    ∧ VIDEO_EXTS.contains (pyLower (pySuffix v.outp)) = true
    ∧ ∃ pr vs, env.probeResult = ProbeRes.ok pr
        ∧ firstOfType "video" pr.streams = some vs
        ∧ v.width = resolvedWidth env vs
        ∧ v.height = resolvedHeight env vs
        ∧ 0 < v.width ∧ 0 < v.height
        ∧ v.fps = fpsResolve ((vs.r_frame_rate).getD "30/1")
        ∧ v.video_codec = pyLower ((vs.codec_name).getD "") := by
  unfold validateAll at h
  by_cases h1 : env.inputExists = false
  · rw [if_pos h1] at h; exact Except.noConfusion h
  rw [if_neg h1] at h
  by_cases h2 : env.inputIsFile = false
  · rw [if_pos h2] at h; exact Except.noConfusion h
  rw [if_neg h2] at h
  by_cases h3 : VIDEO_EXTS.contains (pyLower (pySuffix env.input_path)) = false
  · rw [if_pos h3] at h; exact Except.noConfusion h
  rw [if_neg h3] at h
  simp only [Bool.not_eq_false] at h1 h2
  have h3t : VIDEO_EXTS.contains (pyLower (pySuffix env.input_path)) = true := by
    cases hx : VIDEO_EXTS.contains (pyLower (pySuffix env.input_path))
    · exact absurd hx h3
    · rfl
  cases hro : resolveOutput env with
  | error e => rw [hro] at h; exact Except.noConfusion h
  | ok outp =>
    rw [hro] at h
    dsimp only at h
    by_cases h4 : env.mkdirFails = true
    · rw [if_pos h4] at h; exact Except.noConfusion h
    rw [if_neg h4] at h
    simp only [Bool.not_eq_true] at h4
    cases hpr : env.probeResult with
    | procError => rw [hpr] at h; exact Except.noConfusion h
    | toolNotFound => rw [hpr] at h; exact Except.noConfusion h
    | ok pr =>
      rw [hpr] at h
      dsimp only at h
      by_cases h5 : pr.streams.isEmpty = true
      · rw [if_pos h5] at h; exact Except.noConfusion h
      rw [if_neg h5] at h
      cases hv : firstOfType "video" pr.streams with
      | none => rw [hv] at h; exact Except.noConfusion h
      | some vs =>
        rw [hv] at h
        dsimp only at h
        by_cases h6 : resolvedWidth env vs ≤ 0 ∨ resolvedHeight env vs ≤ 0
        · rw [if_pos h6] at h; exact Except.noConfusion h
        rw [if_neg h6] at h
        push_neg at h6
        by_cases h7 : (pyLower ((vs.codec_name).getD "") == "h264"
            || pyLower ((vs.codec_name).getD "") == "hevc") = false
        · rw [if_pos h7] at h; exact Except.noConfusion h
        rw [if_neg h7] at h
        have hpre : preambleOk env = true := by
          unfold preambleOk
          rw [hro]
          simp [h1, h2, h4]
          exact (contains_iff_mem _ _).mp h3t
        cases ha : firstOfType "audio" pr.streams with
        | some as0 =>
          rw [ha] at h
          dsimp only at h
          by_cases h8 : (pyLower ((as0.codec_name).getD "") == ""
              || pyLower ((as0.codec_name).getD "") == "aac") = false
          · rw [if_pos h8] at h; exact Except.noConfusion h
          rw [if_neg h8] at h
          injection h with hveq
          subst hveq
          exact ⟨hpre, rfl, resolveOutput_ext env outp hro h3t,
            pr, vs, rfl, hv, rfl, rfl, h6.1, h6.2, rfl, rfl⟩
        | none =>
          rw [ha] at h
          dsimp only at h
          injection h with hveq
          subst hveq
          exact ⟨hpre, rfl, resolveOutput_ext env outp hro h3t,
            pr, vs, rfl, hv, rfl, rfl, h6.1, h6.2, rfl, rfl⟩

theorem validateAll_ok_of (env : Env) (pr : Probe) (vs : MStream) (outp : String)
    (h1 : env.inputExists = true) (h2 : env.inputIsFile = true)
    (h3 : VIDEO_EXTS.contains (pyLower (pySuffix env.input_path)) = true)
    (h4 : resolveOutput env = Except.ok outp) (h5 : env.mkdirFails = false)
    (h6 : env.probeResult = ProbeRes.ok pr)
    (h7 : firstOfType "video" pr.streams = some vs)
    (hw : 0 < resolvedWidth env vs) (hh : 0 < resolvedHeight env vs)
    (hc : (pyLower ((vs.codec_name).getD "") == "h264"
          || pyLower ((vs.codec_name).getD "") == "hevc") = true)
    (ha : audioOkB pr = true) :
    validateAll env = Except.ok ⟨outp, resolvedWidth env vs, resolvedHeight env vs,
      fpsResolve ((vs.r_frame_rate).getD "30/1"), pyLower ((vs.codec_name).getD "")⟩ := by
  have hne : pr.streams.isEmpty = false := by
    cases hs : pr.streams with
    | nil => rw [hs] at h7; simp [firstOfType] at h7
    | cons a t => simp [hs]
  unfold validateAll
  rw [if_neg (by simp [h1]), if_neg (by simp [h2]), if_neg (by rw [h3]; decide), h4]
  dsimp only
  rw [if_neg (by simp [h5]), h6]
  dsimp only
  rw [if_neg (by rw [hne]; decide), h7]
  dsimp only
  rw [if_neg (by omega), if_neg (by rw [hc]; decide)]
  unfold audioOkB at ha
  cases haud : firstOfType "audio" pr.streams with
  | none => rfl
  | some as0 =>
    rw [haud] at ha
    dsimp only at ha
    dsimp only
    rw [if_neg (by rw [ha]; decide)]

/-! Congruence lemmas for the case-insensitivity of the codec checks. -/

theorem mapStream_codec (f : String → String) (hf : ∀ t, pyLower (f t) = pyLower t)
    (s : MStream) :
    pyLower (((mapStream f s).codec_name).getD "") = pyLower ((s.codec_name).getD "") := by
  cases hcn : s.codec_name with
  | none => simp [mapStream, hcn]
  | some t => simp [mapStream, hcn, hf t]

theorem firstOfType_mapStream (f : String → String) (t : String) (l : List MStream) :
    firstOfType t (l.map (mapStream f)) = Option.map (mapStream f) (firstOfType t l) := by
  unfold firstOfType
  rw [List.find?_map]
  rfl

theorem isEmpty_map_mapStream (f : String → String) (l : List MStream) :
    (l.map (mapStream f)).isEmpty = l.isEmpty := by
  cases l <;> rfl

theorem validateAll_mapCodecNames (env : Env) (f : String → String)
    (hf : ∀ t, pyLower (f t) = pyLower t) :
    validateAll (mapCodecNames f env) = validateAll env := by
  have e1 : (mapCodecNames f env).inputExists = env.inputExists := rfl
  have e2 : (mapCodecNames f env).inputIsFile = env.inputIsFile := rfl
  have e3 : (mapCodecNames f env).input_path = env.input_path := rfl
  have e4 : resolveOutput (mapCodecNames f env) = resolveOutput env := rfl
  have e5 : (mapCodecNames f env).mkdirFails = env.mkdirFails := rfl
  unfold validateAll
  rw [e1, e2, e3, e4, e5]
  by_cases hA : env.inputExists = false
  · simp only [if_pos hA]
  simp only [if_neg hA]
  by_cases hB : env.inputIsFile = false
  · simp only [if_pos hB]
  simp only [if_neg hB]
  by_cases hC : VIDEO_EXTS.contains (pyLower (pySuffix env.input_path)) = false
  · simp only [if_pos hC]
  simp only [if_neg hC]
  cases hro : resolveOutput env with
  | error e => rfl
  | ok outp =>
    dsimp only
    by_cases hD : env.mkdirFails = true
    · simp only [if_pos hD]
    simp only [if_neg hD]
    cases hpr : env.probeResult with
    | procError =>
      rw [show (mapCodecNames f env).probeResult = ProbeRes.procError by
        simp [mapCodecNames, hpr]]
    | toolNotFound =>
      rw [show (mapCodecNames f env).probeResult = ProbeRes.toolNotFound by
        simp [mapCodecNames, hpr]]
    | ok pr =>
      rw [show (mapCodecNames f env).probeResult
          = ProbeRes.ok ⟨pr.streams.map (mapStream f)⟩ by simp [mapCodecNames, hpr]]
      dsimp only
      rw [isEmpty_map_mapStream]
      by_cases hE : pr.streams.isEmpty = true
      · simp only [if_pos hE]
      simp only [if_neg hE]
      rw [firstOfType_mapStream]
      cases hv : firstOfType "video" pr.streams with
      | none => rfl
      | some vs =>
        dsimp only [Option.map]
        rw [show resolvedWidth (mapCodecNames f env) (mapStream f vs)
            = resolvedWidth env vs from rfl,
          show resolvedHeight (mapCodecNames f env) (mapStream f vs)
            = resolvedHeight env vs from rfl]
        by_cases hF : resolvedWidth env vs ≤ 0 ∨ resolvedHeight env vs ≤ 0
        · simp only [if_pos hF]
        simp only [if_neg hF]
        rw [show ((mapStream f vs).r_frame_rate) = vs.r_frame_rate from rfl,
          mapStream_codec f hf vs]
        by_cases hG : (pyLower ((vs.codec_name).getD "") == "h264"
            || pyLower ((vs.codec_name).getD "") == "hevc") = false
        · simp only [if_pos hG]
        simp only [if_neg hG]
        rw [firstOfType_mapStream]
        cases haud : firstOfType "audio" pr.streams with
        | none => rfl
        | some as0 =>
          dsimp only [Option.map]
          rw [mapStream_codec f hf as0]

theorem afterValidation_mapCodecNames (env : Env) (f : String → String) (v : Validated) :
    afterValidation (mapCodecNames f env) v = afterValidation env v := rfl

theorem preambleOk_split (env : Env) (h : preambleOk env = true) :
    env.inputExists = true ∧ env.inputIsFile = true
    ∧ VIDEO_EXTS.contains (pyLower (pySuffix env.input_path)) = true
    ∧ (∃ outp, resolveOutput env = Except.ok outp)
    ∧ env.mkdirFails = false := by
  unfold preambleOk at h
  simp only [Bool.and_eq_true] at h
  obtain ⟨⟨⟨⟨h1, h2⟩, h3⟩, hm⟩, h5⟩ := h
  refine ⟨h1, h2, h3, ?_, by simpa using h5⟩
  cases hro : resolveOutput env with
  | error e => rw [hro] at hm; simp at hm
  | ok o => exact ⟨o, rfl⟩

theorem markVideoCore_of_error (env : Env) (e : PyErr)
    (h : validateAll env = Except.error e) :
    markVideoCore env = ⟨Except.error e, [], false, none⟩ := by
  unfold markVideoCore
  rw [h]

theorem validateAll_invalidResolution (env : Env) (pr : Probe) (vs : MStream) (outp : String)
    (h1 : env.inputExists = true) (h2 : env.inputIsFile = true)
    (h3 : VIDEO_EXTS.contains (pyLower (pySuffix env.input_path)) = true)
    (h4 : resolveOutput env = Except.ok outp) (h5 : env.mkdirFails = false)
    (hp : env.probeResult = ProbeRes.ok pr)
    (hv : firstOfType "video" pr.streams = some vs)
    (hres : resolvedWidth env vs ≤ 0 ∨ resolvedHeight env vs ≤ 0) :
    validateAll env = Except.error (PyErr.invalidMedia
      (InvalidMediaKind.invalidResolution (resolvedWidth env vs) (resolvedHeight env vs))) := by
  have hne : pr.streams.isEmpty = false := by
    cases hs : pr.streams with
    | nil => rw [hs] at hv; simp [firstOfType] at hv
    | cons a t => simp [hs]
  unfold validateAll
  rw [if_neg (by simp [h1]), if_neg (by simp [h2]), if_neg (by rw [h3]; decide), h4]
  dsimp only
  rw [if_neg (by simp [h5]), hp]
  dsimp only
  rw [if_neg (by rw [hne]; decide), hv]
  dsimp only
  rw [if_pos hres]

theorem validateAll_unsupportedCodec (env : Env) (pr : Probe) (vs : MStream) (outp : String)
    (h1 : env.inputExists = true) (h2 : env.inputIsFile = true)
    (h3 : VIDEO_EXTS.contains (pyLower (pySuffix env.input_path)) = true)
    (h4 : resolveOutput env = Except.ok outp) (h5 : env.mkdirFails = false)
    (hp : env.probeResult = ProbeRes.ok pr)
    (hv : firstOfType "video" pr.streams = some vs)
    (hres : ¬(resolvedWidth env vs ≤ 0 ∨ resolvedHeight env vs ≤ 0))
    (hcb : (pyLower ((vs.codec_name).getD "") == "h264"
        || pyLower ((vs.codec_name).getD "") == "hevc") = false) :
    validateAll env = Except.error (PyErr.invalidMedia
      (InvalidMediaKind.unsupportedVideoCodec (pyLower ((vs.codec_name).getD "")))) := by
  have hne : pr.streams.isEmpty = false := by
    cases hs : pr.streams with
    | nil => rw [hs] at hv; simp [firstOfType] at hv
    | cons a t => simp [hs]
  unfold validateAll
  rw [if_neg (by simp [h1]), if_neg (by simp [h2]), if_neg (by rw [h3]; decide), h4]
  dsimp only
  rw [if_neg (by simp [h5]), hp]
  dsimp only
  rw [if_neg (by rw [hne]; decide), hv]
  dsimp only
  rw [if_neg hres, if_pos hcb]

/-! The claims. -/

/-- Claim C1: whenever a `mark_video` call reaches the point where the three
temporary artifact paths are assigned (line 118), the `finally` cleanup runs
on every exit path: each temp path present in the filesystem has its removal
attempted and, unless its removal fails, is absent afterwards; an
already-absent path is skipped (no removal attempt, still absent); and a
failing removal is swallowed, leaving the call result unchanged. -/
theorem c1_temp_cleanup_on_every_exit (env : Env) (fs rf : List String)
    (h : (markVideo env fs rf).assigned = true) :
    (∀ p ∈ tempPaths env,
        (p ∈ fs → p ∈ (markVideo env fs rf).attempted)
      ∧ (p ∉ fs → p ∉ (markVideo env fs rf).attempted ∧ p ∉ (markVideo env fs rf).finalFs)
      ∧ (p ∉ rf → p ∉ (markVideo env fs rf).finalFs))
    ∧ ∀ rf2, (markVideo env fs rf2).result = (markVideo env fs rf).result := by
  have hc : (markVideoCore env).assigned = true := h
  have hth : markVideo env fs rf = ⟨(markVideoCore env).result, (markVideoCore env).spawned,
      (markVideoCore env).assigned, (markVideoCore env).synthRes,
      (removeLoop ((tempPaths env).map some) fs rf).1,
      (removeLoop ((tempPaths env).map some) fs rf).2⟩ := by
    simp only [markVideo, hc, if_pos]
  constructor
  · intro p hp
    have hmem : some p ∈ (tempPaths env).map some := List.mem_map_of_mem some hp
    refine ⟨?_, ?_, ?_⟩
    · intro hpfs
      rw [hth]
      exact removeLoop_attempts _ fs rf p hmem hpfs
    · intro hnfs
      rw [hth]
      exact ⟨fun hmem2 => hnfs (removeLoop_attempted_mem _ fs rf p hmem2),
        removeLoop_fs_mono _ fs rf p hnfs⟩
    · intro hnrf
      rw [hth]
      by_cases hpfs : p ∈ fs
      · exact removeLoop_removes _ fs rf p hmem hpfs hnrf
      · exact removeLoop_fs_mono _ fs rf p hpfs
  · intro rf2
    rfl

/-- Witness for C1: on the fully successful baseline run with all three temp
files present, the marker transport segment is attempted and removed. -/
theorem c1_temp_cleanup_on_every_exit_witness :
    markerTsPath envBase ∉ (markVideo envBase (tempPaths envBase) []).finalFs
    ∧ markerTsPath envBase ∈ (markVideo envBase (tempPaths envBase) []).attempted := by
  have h := c1_temp_cleanup_on_every_exit envBase (tempPaths envBase) [] (by decide)
  have hp : markerTsPath envBase ∈ tempPaths envBase := by decide
  exact ⟨(h.1 _ hp).2.2 (by decide), (h.1 _ hp).1 (by decide)⟩

/-- Claim C2 (code bug): the source intends a non-zero exit of any external
stage to surface as `FFmpegProcessError(command, stderr)` (line 168), but
since every `subprocess.run` uses `stdout=DEVNULL, stderr=STDOUT`, the
`CalledProcessError.stderr` attribute is `None` and `e.stderr.decode(...)`
raises `AttributeError`, which escapes `mark_video` -- for the synthesize,
both remux, and concatenate stages alike; no process-failure error is ever
produced on this path. -/
theorem c2_nonzero_exit_escapes_as_attribute_error :
    ((markVideoCore { envBase with synthRun := .fail "err" }).result
      = Except.error (PyErr.attributeError "NoneType object has no attribute decode"))
    ∧ ((markVideoCore { envBase with remuxMarkerRun := .fail "err" }).result
      = Except.error (PyErr.attributeError "NoneType object has no attribute decode"))
    ∧ ((markVideoCore { envBase with remuxMainRun := .fail "err" }).result
      = Except.error (PyErr.attributeError "NoneType object has no attribute decode"))
    ∧ ((markVideoCore { envBase with concatRun := .fail "err" }).result
      = Except.error (PyErr.attributeError "NoneType object has no attribute decode"))
    ∧ isProcessFailure (markVideoCore { envBase with synthRun := .fail "err" }).result
      = false :=
  ⟨by decide, by decide, by decide, by decide, by decide⟩

/-- Claim C3: whenever `mark_video` builds its concatenation command (the
fourth spawned command), the audio bitstream adjustment filter
`aac_adtstoasc` occurs in it exactly when the resolved destination path has
(lowercased) extension `.mp4`.  The right-hand side of the equivalence does
not mention the probed streams at all, so the rule is independent of whether
the source has an audio stream. -/
theorem c3_adts_filter_iff_mp4_destination (env : Env) (cmd : List String)
    (h : (markVideoCore env).spawned.get? 3 = some cmd) :
    ∃ out, resolveOutput env = Except.ok out
      ∧ (("aac_adtstoasc" ∈ cmd) ↔ pyLower (pySuffix out) = ".mp4") := by
  obtain ⟨v, hval, hcmd⟩ := markVideoCore_spawned_get3 env cmd h
  obtain ⟨_, hro, hext, _⟩ := validateAll_ok_inv env v hval
  refine ⟨v.outp, hro, ?_⟩
  rw [hcmd, mem_adts_buildFinalCmd _ _ _ hext]
  exact endswith_iff_ext_mp4 v.outp hext

/-- Witness for C3 at the baseline run (destination `/v/in_marked.mp4`). -/
theorem c3_adts_filter_iff_mp4_destination_witness :
    ∃ out, resolveOutput envBase = Except.ok out
      ∧ (("aac_adtstoasc"
            ∈ buildFinalCmd (markerTsPath envBase) (mainTsPath envBase) "/v/in_marked.mp4")
          ↔ pyLower (pySuffix out) = ".mp4") :=
  c3_adts_filter_iff_mp4_destination envBase _ (by decide)

/-- Claim C4: when the probed first video stream carries a codec outside
the h264/hevc whitelist, `mark_video` fails with `InvalidMediaError` and
spawns no encode subprocess at all (the temp paths are not even assigned);
when the resolved resolution is positive the error is precisely the
unsupported-video-codec one (otherwise the invalid-resolution check, which
the source runs first, yields the same Python error type). -/
theorem c4_unsupported_video_codec_rejected_before_synthesis
    (env : Env) (pr : Probe) (vs : MStream)
    (hpre : preambleOk env = true)
    (hp : env.probeResult = ProbeRes.ok pr)
    (hv : firstOfType "video" pr.streams = some vs)
    (hcodec : pyLower ((vs.codec_name).getD "") ≠ "h264"
      ∧ pyLower ((vs.codec_name).getD "") ≠ "hevc") :
    (∃ k, (markVideoCore env).result = Except.error (PyErr.invalidMedia k))
    ∧ (markVideoCore env).spawned = []
    ∧ (markVideoCore env).assigned = false
    ∧ (0 < resolvedWidth env vs → 0 < resolvedHeight env vs →
        (markVideoCore env).result = Except.error (PyErr.invalidMedia
          (InvalidMediaKind.unsupportedVideoCodec (pyLower ((vs.codec_name).getD ""))))) := by
  obtain ⟨h1, h2, h3, ⟨outp, hro⟩, h5⟩ := preambleOk_split env hpre
  have hcb : (pyLower ((vs.codec_name).getD "") == "h264"
      || pyLower ((vs.codec_name).getD "") == "hevc") = false := by
    simp [hcodec.1, hcodec.2]
  by_cases hres : resolvedWidth env vs ≤ 0 ∨ resolvedHeight env vs ≤ 0
  · have hval := validateAll_invalidResolution env pr vs outp h1 h2 h3 hro h5 hp hv hres
    rw [markVideoCore_of_error env _ hval]
    refine ⟨⟨_, rfl⟩, rfl, rfl, ?_⟩
    intro hw hh
    exfalso
    rcases hres with hres | hres <;> omega
  · have hval := validateAll_unsupportedCodec env pr vs outp h1 h2 h3 hro h5 hp hv hres hcb
    rw [markVideoCore_of_error env _ hval]
    exact ⟨⟨_, rfl⟩, rfl, rfl, fun _ _ => rfl⟩

/-- Witness for C4: a probed vp9 stream is rejected with the
unsupported-video-codec error and nothing is spawned. -/
theorem c4_unsupported_video_codec_rejected_before_synthesis_witness :
    (markVideoCore envC4).result = Except.error (PyErr.invalidMedia
      (InvalidMediaKind.unsupportedVideoCodec "vp9"))
    ∧ (markVideoCore envC4).spawned = [] := by
  have h := c4_unsupported_video_codec_rejected_before_synthesis envC4 prC4 vsC4
    (by decide) rfl (by decide) (by decide)
  exact ⟨h.2.2.2 (by decide) (by decide), h.2.1⟩

/-- Claim C5 (code bug): if the encoder executable is missing when the
marker clip is synthesized, `subprocess.run` raises `FileNotFoundError`,
which `mark_video` (unlike `mark_audio`, line 91-92 of mark_audio.py) does
not convert to `FFmpegNotFoundError`: the generic handler at line 174 wraps
it into `VideoMarkingError` instead, contradicting spec section 4.3 and the
documented purpose of `FFmpegNotFoundError`. -/
theorem c5_missing_encoder_not_reported_as_tool_not_found :
    ((markVideoCore { envBase with synthRun := .notFound }).result
      = Except.error (PyErr.videoMarking
          "An unexpected error occurred during marking: FileNotFoundError"))
    ∧ ((markVideoCore { envBase with synthRun := .notFound }).result
      ≠ Except.error PyErr.ffmpegNotFound) :=
  ⟨by decide, by decide⟩

/-- Claim C6: the resolved synthesis resolution is the caller override when
one is supplied and the probed first-video-stream dimensions otherwise; a
non-positive resolved dimension yields the invalid-resolution
`InvalidMediaError`, and any resolution actually handed to the synthesizer
equals the resolved one. -/
theorem c6_resolution_override_and_validation (env : Env) (pr : Probe) (vs : MStream)
    (hpre : preambleOk env = true)
    (hp : env.probeResult = ProbeRes.ok pr)
    (hv : firstOfType "video" pr.streams = some vs) :
    (∀ a b, env.resolution = some (a, b)
      → resolvedWidth env vs = a ∧ resolvedHeight env vs = b)
    ∧ (env.resolution = none
      → resolvedWidth env vs = (vs.width).getD 0 ∧ resolvedHeight env vs = (vs.height).getD 0)
    ∧ (resolvedWidth env vs ≤ 0 ∨ resolvedHeight env vs ≤ 0
      → (markVideoCore env).result = Except.error (PyErr.invalidMedia
          (InvalidMediaKind.invalidResolution (resolvedWidth env vs) (resolvedHeight env vs))))
    ∧ (∀ a b, (markVideoCore env).synthRes = some (a, b)
      → a = resolvedWidth env vs ∧ b = resolvedHeight env vs) := by
  obtain ⟨h1, h2, h3, ⟨outp, hro⟩, h5⟩ := preambleOk_split env hpre
  refine ⟨?_, ?_, ?_, ?_⟩
  · intro a b hr
    simp [resolvedWidth, resolvedHeight, hr]
  · intro hr
    simp [resolvedWidth, resolvedHeight, hr]
  · intro hres
    have hval := validateAll_invalidResolution env pr vs outp h1 h2 h3 hro h5 hp hv hres
    rw [markVideoCore_of_error env _ hval]
  · intro a b hsr
    obtain ⟨v, hval, heq⟩ := markVideoCore_synthRes_inv env (a, b) hsr
    obtain ⟨_, _, _, pr2, vs2, hp2, hv2, hweq, hheq, _⟩ := validateAll_ok_inv env v hval
    rw [hp] at hp2
    have hpr12 : pr = pr2 := ProbeRes.ok.inj hp2
    subst hpr12
    rw [hv] at hv2
    have hvs12 : vs = vs2 := Option.some.inj hv2
    subst hvs12
    have ha : a = v.width := congrArg Prod.fst heq
    have hb : b = v.height := congrArg Prod.snd heq
    exact ⟨ha.trans hweq, hb.trans hheq⟩

/-- Witness for C6: the spec scenario -- override (640, 480) over a probed
1920x1080 stream -- resolves to (640, 480), and the synthesizer is invoked
with exactly that resolution. -/
theorem c6_resolution_override_and_validation_witness :
    resolvedWidth envC6 vsC6 = 640 ∧ resolvedHeight envC6 vsC6 = 480
    ∧ (markVideoCore envC6).synthRes = some (640, 480) := by
  have h := c6_resolution_override_and_validation envC6 prC6 vsC6 (by decide) rfl (by decide)
  exact ⟨(h.1 640 480 rfl).1, (h.1 640 480 rfl).2, by decide⟩

/-- Claim C7: the concatenation input of the final command (its fourth
argument) is the string `concat:` followed by the marker transport path,
the separator bar, then the main transport path -- the marker segment
always precedes the main segment; and at most four commands are spawned,
the concatenation being the single fourth one. -/
theorem c7_concat_marker_before_main (env : Env) (cmd : List String)
    (h : (markVideoCore env).spawned.get? 3 = some cmd) :
    cmd.get? 3 = some ("concat:" ++ markerTsPath env ++ "|" ++ mainTsPath env)
    ∧ (markVideoCore env).spawned.length ≤ 4 := by
  obtain ⟨v, hval, hcmd⟩ := markVideoCore_spawned_get3 env cmd h
  refine ⟨?_, markVideoCore_spawned_length env⟩
  rw [hcmd]
  unfold buildFinalCmd
  by_cases hc : pyEndsWith (pyLower v.outp) ".mp4" = true
  · rw [if_pos hc]
    rfl
  · rw [if_neg hc]
    rfl

/-- Witness for C7 at the baseline run. -/
theorem c7_concat_marker_before_main_witness :
    (buildFinalCmd (markerTsPath envBase) (mainTsPath envBase) "/v/in_marked.mp4").get? 3
      = some ("concat:" ++ markerTsPath envBase ++ "|" ++ mainTsPath envBase)
    ∧ (markVideoCore envBase).spawned.length ≤ 4 :=
  c7_concat_marker_before_main envBase _ (by decide)

/-- Claim C8: the probed rate string is resolved by rational parsing with a
raw-string fallback: when parsing fails, the pipeline does not fail there --
synthesis is still reached and the encode command carries the original raw
string as the argument of its `-r` flag. -/
theorem c8_frame_rate_parse_failure_passthrough
    (env : Env) (pr : Probe) (vs : MStream) (outp : String)
    (h1 : env.inputExists = true) (h2 : env.inputIsFile = true)
    (h3 : VIDEO_EXTS.contains (pyLower (pySuffix env.input_path)) = true)
    (h4 : resolveOutput env = Except.ok outp) (h5 : env.mkdirFails = false)
    (hp : env.probeResult = ProbeRes.ok pr)
    (hv : firstOfType "video" pr.streams = some vs)
    (hw : 0 < resolvedWidth env vs) (hh : 0 < resolvedHeight env vs)
    (hc : (pyLower ((vs.codec_name).getD "") == "h264"
          || pyLower ((vs.codec_name).getD "") == "hevc") = true)
    (ha : audioOkB pr = true)
    (hparse : pyFraction ((vs.r_frame_rate).getD "30/1") = none) :
    ∃ c rest, (markVideoCore env).spawned = c :: rest
      ∧ c.get? 15 = some "-r"
      ∧ c.get? 16 = some ((vs.r_frame_rate).getD "30/1") := by
  have hval := validateAll_ok_of env pr vs outp h1 h2 h3 h4 h5 hp hv hw hh hc ha
  have hcore : markVideoCore env = afterValidation env
      ⟨outp, resolvedWidth env vs, resolvedHeight env vs,
        fpsResolve ((vs.r_frame_rate).getD "30/1"), pyLower ((vs.codec_name).getD "")⟩ := by
    unfold markVideoCore
    rw [hval]
  obtain ⟨rest, hrest⟩ := afterValidation_spawned_cons env
    ⟨outp, resolvedWidth env vs, resolvedHeight env vs,
      fpsResolve ((vs.r_frame_rate).getD "30/1"), pyLower ((vs.codec_name).getD "")⟩
  refine ⟨cmdMarker env
      ⟨outp, resolvedWidth env vs, resolvedHeight env vs,
        fpsResolve ((vs.r_frame_rate).getD "30/1"), pyLower ((vs.codec_name).getD "")⟩,
    rest, by rw [hcore]; exact hrest, rfl, ?_⟩
  show some (fpsResolve ((vs.r_frame_rate).getD "30/1"))
      = some ((vs.r_frame_rate).getD "30/1")
  unfold fpsResolve
  rw [hparse]

/-- Witness for C8: the raw string "abc" fails to parse and is passed
through unchanged into the encode command. -/
theorem c8_frame_rate_parse_failure_passthrough_witness :
    ∃ c rest, (markVideoCore envC8).spawned = c :: rest
      ∧ c.get? 15 = some "-r"
      ∧ c.get? 16 = some ((vsC8.r_frame_rate).getD "30/1") :=
  c8_frame_rate_parse_failure_passthrough envC8 prC8 vsC8 "/v/in_marked.mp4"
    rfl rfl (by decide) (by decide) rfl rfl (by decide) (by decide) (by decide)
    (by decide) (by decide) (by decide)

/-- Claim C9: a probed first video stream with no rate field defaults the
rate string to "30/1", which parses as the rational 30, so the encode
command receives "30" as the argument of its `-r` flag. -/
theorem c9_missing_frame_rate_defaults_to_30
    (env : Env) (pr : Probe) (vs : MStream) (outp : String)
    (h1 : env.inputExists = true) (h2 : env.inputIsFile = true)
    (h3 : VIDEO_EXTS.contains (pyLower (pySuffix env.input_path)) = true)
    (h4 : resolveOutput env = Except.ok outp) (h5 : env.mkdirFails = false)
    (hp : env.probeResult = ProbeRes.ok pr)
    (hv : firstOfType "video" pr.streams = some vs)
    (hw : 0 < resolvedWidth env vs) (hh : 0 < resolvedHeight env vs)
    (hc : (pyLower ((vs.codec_name).getD "") == "h264"
          || pyLower ((vs.codec_name).getD "") == "hevc") = true)
    (ha : audioOkB pr = true)
    (hfr : vs.r_frame_rate = none) :
    ∃ c rest, (markVideoCore env).spawned = c :: rest
      ∧ c.get? 15 = some "-r"
      ∧ c.get? 16 = some "30" := by
  have hval := validateAll_ok_of env pr vs outp h1 h2 h3 h4 h5 hp hv hw hh hc ha
  have hcore : markVideoCore env = afterValidation env
      ⟨outp, resolvedWidth env vs, resolvedHeight env vs,
        fpsResolve ((vs.r_frame_rate).getD "30/1"), pyLower ((vs.codec_name).getD "")⟩ := by
    unfold markVideoCore
    rw [hval]
  obtain ⟨rest, hrest⟩ := afterValidation_spawned_cons env
    ⟨outp, resolvedWidth env vs, resolvedHeight env vs,
      fpsResolve ((vs.r_frame_rate).getD "30/1"), pyLower ((vs.codec_name).getD "")⟩
  refine ⟨cmdMarker env
      ⟨outp, resolvedWidth env vs, resolvedHeight env vs,
        fpsResolve ((vs.r_frame_rate).getD "30/1"), pyLower ((vs.codec_name).getD "")⟩,
    rest, by rw [hcore]; exact hrest, rfl, ?_⟩
  show some (fpsResolve ((vs.r_frame_rate).getD "30/1")) = some "30"
  rw [hfr]
  decide

/-- Witness for C9: a stream with no rate field leads to "-r" "30". -/
theorem c9_missing_frame_rate_defaults_to_30_witness :
    ∃ c rest, (markVideoCore envC9).spawned = c :: rest
      ∧ c.get? 15 = some "-r"
      ∧ c.get? 16 = some "30" :=
  c9_missing_frame_rate_defaults_to_30 envC9 prC9 vsC9 "/v/in_marked.mp4"
    rfl rfl (by decide) (by decide) rfl rfl (by decide) (by decide) (by decide)
    (by decide) (by decide) rfl

/-- Claim C10: the codec whitelist checks lowercase the probed names before
comparison, so `mark_video` is insensitive to the case of the probed video
and audio codec names: transforming every probed codec name by any function
that agrees with the identity after lowercasing (such as
h264 to H264 / aac to AAC) leaves the whole observable behaviour --
result, spawned commands, everything -- unchanged. -/
theorem c10_codec_checks_case_insensitive (env : Env) (f : String → String)
    (hf : ∀ t, pyLower (f t) = pyLower t) :
    markVideoCore (mapCodecNames f env) = markVideoCore env := by
  unfold markVideoCore
  rw [validateAll_mapCodecNames env f hf]
  cases validateAll env with
  | error e => rfl
  | ok v => exact afterValidation_mapCodecNames env f v

/-- Witness for C10: uppercasing the probed "h264" and "aac" names (giving
"H264" / "AAC") leaves the baseline audio run unchanged. -/
theorem c10_codec_checks_case_insensitive_witness :
    markVideoCore (mapCodecNames upCodec envBaseAudio) = markVideoCore envBaseAudio := by
  have hf : ∀ t, pyLower (upCodec t) = pyLower t := by
    intro t
    unfold upCodec
    by_cases hA : (t == "h264") = true
    · rw [if_pos hA, eq_of_beq hA]
      decide
    · rw [if_neg hA]
      by_cases hB : (t == "aac") = true
      · rw [if_pos hB, eq_of_beq hB]
        decide
      · rw [if_neg hB]
  exact c10_codec_checks_case_insensitive envBaseAudio upCodec hf

end MarkMyMedia
